import Mathlib

/-!
Verification of the brain-dump assimilation pipeline of the
Antigravity Architect repository (`antigravity_master_setup.py`).

The pipeline (class `AntigravityAssimilator` together with the file helpers
of `AntigravityEngine`) is shallowly embedded here:

* text is modelled as `String` / `List Char` (ASCII word-character and
  whitespace semantics, matching the keyword tables which are all ASCII);
* the filesystem is modelled as an association list from paths to file
  contents, a path being the list of components handed to `os.path.join`;
* Python's regex operations used by the source (`\b`-bounded word search,
  `re.findall` counting, `re.split` on the multiline heading pattern
  `^#+\s+.*$`, and the substitutions inside `slugify_title`) are embedded
  as executable scanning functions with the same greedy, leftmost,
  non-overlapping semantics.
-/

/-! ## Character classes (ASCII model of Python `\w`, `\s`, `str.strip`) -/

/-- ASCII model of Python's regex word character class `\w`:
alphanumeric or underscore. -/
def isWordChar (c : Char) : Bool := c.isAlphanum || c = '_'

/-- ASCII model of Python's regex whitespace class `\s` and of the default
character set stripped by `str.strip()`. -/
def isPySpace (c : Char) : Bool :=
  c = ' ' || c = '\t' || c = '\n' || c = '\r' || c = '\x0b' || c = '\x0c'

/-- Strip `isPySpace` characters from both ends of a character list:
the model of Python's `str.strip()`. -/
def stripChars (l : List Char) : List Char :=
  ((l.dropWhile isPySpace).reverse.dropWhile isPySpace).reverse

/-- Model of Python's `str.strip()` on strings. -/
def pyStrip (s : String) : String := String.mk (stripChars s.data)

/-- Model of Python's `str.lower()` on character lists (ASCII). -/
def lowerChars (l : List Char) : List Char := l.map Char.toLower

/-! ## Word-boundary regex search and counting

The source searches for `\b<literal>\b` (`re.search`) and counts matches
(`re.findall`).  A `\b` boundary holds at a position when exactly one of
the two adjacent characters is a word character (a missing neighbour at
the start or end of the text counts as a non-word character). -/

/-- Word-character test on an optional neighbouring character; text
boundaries behave as non-word characters. -/
def optIsWord : Option Char → Bool
  | none => false
  | some c => isWordChar c

/-- `startsWithList pat t` : `pat` is literally the first `pat.length`
characters of `t`. -/
def startsWithList : List Char → List Char → Bool
  | [], _ => true
  | _ :: _, [] => false
  | a :: as, b :: bs => a = b && startsWithList as bs

/-- The literal pattern `k` matches at the head of `t` with `\b` boundaries
on both sides; `prev` is the character immediately before `t` in the full
text (`none` at the start of the text). -/
def matchesAt (k : List Char) (prev : Option Char) (t : List Char) : Bool :=
  match k with
  | [] => false
  | kh :: _ =>
      startsWithList k t &&
      (optIsWord prev != isWordChar kh) &&
      (isWordChar (k.getLastD kh) != optIsWord (t.drop k.length).head?)

/-- One left-to-right scan deciding whether `\b k \b` matches anywhere in
the text; the model of `re.search(r"\b" + re.escape(k) + r"\b", text)`. -/
def hasWordMatchAux (k : List Char) : Option Char → List Char → Bool
  | _, [] => false
  | prev, c :: rest => matchesAt k prev (c :: rest) || hasWordMatchAux k (some c) rest

/-- `re.search` existence of a `\b`-bounded match of the literal `k`. -/
def hasWordMatch (k t : List Char) : Bool := hasWordMatchAux k none t

/-- Fuelled left-to-right non-overlapping scan counting `\b`-bounded
matches of the literal `k`: the model of
`len(re.findall(r"\b" + re.escape(k) + r"\b", text))`.  After a match the
scan resumes past the matched characters. -/
def findallCountAux (k : List Char) : Nat → Option Char → List Char → Nat
  | 0, _, _ => 0
  | _ + 1, _, [] => 0
  | fuel + 1, prev, c :: rest =>
      if matchesAt k prev (c :: rest) then
        1 + findallCountAux k fuel (some (k.getLastD c)) ((c :: rest).drop k.length)
      else
        findallCountAux k fuel (some c) rest

/-- Number of non-overlapping `\b`-bounded matches of `k` in `t`. -/
def findallCount (k t : List Char) : Nat := findallCountAux k (t.length + 1) none t

/-! ## Resource tables (`AntigravityResources`) -/

/-- `AntigravityResources.AGENT_DIR`. -/
def AGENT_DIR : String := ".agent"

/-- The primary technology keys scanned by `detect_tech_stack`:
the union of the keys of `AntigravityResources.GITIGNORE_MAP`
(python, node, docker, postgres, react, nextjs, macos, windows, linux,
vscode, gitea) and of `AntigravityResources.NIX_PACKAGE_MAP`
(python, node, docker, sql).  The source forms a Python `set`, so the
iteration order is irrelevant downstream; it is fixed here. -/
def primarySources : List String :=
  ["python", "node", "docker", "postgres", "react", "nextjs", "macos",
   "windows", "linux", "vscode", "gitea", "sql"]

/-- `AntigravityResources.TECH_ALIASES`: canonical keyword paired with its
alias tokens, in declaration order. -/
def TECH_ALIASES : List (String × List String) :=
  [("python", ["django", "flask", "fastapi", "numpy", "pandas", "pytorch",
               "tensorflow", "scipy", "pytest", "poetry"]),
   ("node", ["javascript", "typescript", "react", "vue", "svelte",
             "sveltekit", "nextjs", "express", "nest", "npm", "yarn", "pnpm"]),
   ("docker", ["container", "dockerfile", "docker-compose", "kubernetes", "k8s"]),
   ("sql", ["postgres", "postgresql", "sqlite", "mysql", "mariadb", "oracle", "db2"]),
   ("cloud", ["aws", "azure", "gcp", "google cloud", "lambda", "s3", "ec2"])]

/-- Keyword lists of `AntigravityResources.CLASSIFICATION_RULES`, in the
declaration order rules, workflows, skills, docs. -/
def rulesKeywords : List String :=
  ["always", "never", "must", "style", "convention", "standard", "protocol",
   "policy", "lint", "formatting", "security"]

/-- Keywords of the `workflows` category. -/
def workflowsKeywords : List String :=
  ["step", "guide", "process", "workflow", "how-to", "deploy", "setup",
   "run", "execution", "plan", "roadmap"]

/-- Keywords of the `skills` category. -/
def skillsKeywords : List String :=
  ["command", "cli", "tool", "usage", "utility", "script", "automation",
   "flags", "arguments", "terminal"]

/-- Keywords of the `docs` category. -/
def docsKeywords : List String :=
  ["overview", "architecture", "introduction", "background", "context",
   "diagram", "concept", "summary"]

/-! ## Keyword detector (`AntigravityAssimilator.detect_tech_stack`) -/

/-- Embedding of `AntigravityAssimilator.detect_tech_stack`: lowercase the
text, keep every primary keyword with a `\b`-bounded match, add the
canonical keyword of every alias table entry one of whose aliases has a
`\b`-bounded match, and return the results as a duplicate-free list (the
source accumulates them in a Python `set`). -/
def detect_tech_stack (text : String) : List String :=
  let text_lower := lowerChars text.data
  let prim := primarySources.filter (fun k => hasWordMatch k.data text_lower)
  let viaAlias := TECH_ALIASES.filterMap (fun pr =>
    if pr.2.any (fun al => hasWordMatch al.data text_lower) then some pr.1 else none)
  (prim ++ viaAlias).dedup

/-! ## Classifier (`AntigravityAssimilator.identify_category`) -/

/-- Score of one category: total `re.findall` count over its keyword
list, on the lowercased text. -/
def keywordScore (text_lower : List Char) (keywords : List String) : Nat :=
  (keywords.map (fun k => findallCount k.data text_lower)).sum

/-- Embedding of Python's `max(items, key=value)` over a non-empty list:
the fold keeps the current best and replaces it only on a strictly
greater value, so the first maximum in iteration order wins. -/
def pickMaxFold : (String × Nat) → List (String × Nat) → (String × Nat)
  | best, [] => best
  | best, x :: xs => pickMaxFold (if x.2 > best.2 then x else best) xs

/-- Embedding of `AntigravityAssimilator.identify_category`: score the four
categories in declaration order, take `max(scores, key=scores.get)` and
fall back to `"docs"` when the best score is zero. -/
def identify_category (text : String) : String :=
  let text_lower := lowerChars text.data
  let a := keywordScore text_lower rulesKeywords
  let b := keywordScore text_lower workflowsKeywords
  let c := keywordScore text_lower skillsKeywords
  let d := keywordScore text_lower docsKeywords
  let best := pickMaxFold ("rules", a) [("workflows", b), ("skills", c), ("docs", d)]
  if best.2 = 0 then "docs" else best.1

/-! ## Slugifier (`AntigravityEngine.slugify_title`) -/

/-- Collapse every run of consecutive underscores to a single underscore:
the model of `re.sub(r"_+", "_", slug)`. -/
def collapseUnderscores : List Char → List Char
  | [] => []
  | [c] => [c]
  | a :: b :: rest =>
      if a = '_' && b = '_' then collapseUnderscores (b :: rest)
      else a :: collapseUnderscores (b :: rest)

/-- Strip underscores from both ends: the model of `slug.strip("_")`. -/
def stripUnderscores (l : List Char) : List Char :=
  ((l.dropWhile (fun c => c = '_')).reverse.dropWhile (fun c => c = '_')).reverse

/-- ASCII-alphanumeric test: the character class `[a-zA-Z0-9]` of the
substitution inside `slugify_title`. -/
def isAsciiAlnum (c : Char) : Bool := c.isAlphanum

/-- Embedding of `AntigravityEngine.slugify_title`:
`re.sub(r"^#+\s*", "", title)` (strip a leading `#` run together with the
whitespace run that follows it), lowercase, `re.sub(r"[^a-zA-Z0-9]", "_")`,
collapse `_+` runs, `strip("_")`, default `"untitled"` when empty,
truncate to 50 characters. -/
def slugify_title (title : String) : String :=
  let t := title.data
  let t1 := if t.head? = some '#'
    then (t.dropWhile (fun c => c = '#')).dropWhile isPySpace
    else t
  let t2 := (lowerChars t1).map (fun c => if isAsciiAlnum c then c else '_')
  let t3 := stripUnderscores (collapseUnderscores t2)
  let t4 := if t3 = [] then "untitled".data else t3
  String.mk (t4.take 50)

/-! ## Router (`AntigravityAssimilator.get_destination_path`)

Paths are modelled as the list of components handed to `os.path.join`,
with the base directory as the first component. -/

/-- A filesystem path: the component list handed to `os.path.join`. -/
abbrev FPath := List String

/-- Embedding of `AntigravityAssimilator.get_destination_path`: look the
category up in the `category_paths` dict, falling back to the `docs`
entry (`category_paths.get(category, category_paths["docs"])`). -/
def get_destination_path (base_dir category safe_title : String) : FPath :=
  let category_paths : List (String × FPath) :=
    [("rules", [base_dir, AGENT_DIR, "rules", "imported_" ++ safe_title ++ ".md"]),
     ("workflows", [base_dir, AGENT_DIR, "workflows", "imported_" ++ safe_title ++ ".md"]),
     ("skills", [base_dir, AGENT_DIR, "skills", "imported_" ++ safe_title, "SKILL.md"]),
     ("docs", [base_dir, "docs", "imported", safe_title ++ ".md"])]
  ((category_paths.find? (fun pr => decide (pr.1 = category))).map (fun pr => pr.2)).getD
    [base_dir, "docs", "imported", safe_title ++ ".md"]

/-! ## Section splitter

`process_brain_dump` runs
`re.split(r"(^#+\s+.*$)", full_text, flags=re.MULTILINE)`, producing the
preamble followed by alternating (heading delimiter, following chunk)
pairs.  A heading match starts at a line start, takes the maximal `#` run,
then a maximal whitespace run (which, `\s` including newlines, may cross
line ends), then the maximal run of non-newline characters. -/

/-- Try the greedy heading match `#+\s+.*$` at the head of `t` (which must
be a line-start position); on success return the matched delimiter and the
unconsumed remainder. -/
def headingMatchAt (t : List Char) : Option (List Char × List Char) :=
  let hs := t.takeWhile (fun c => c = '#')
  if hs.isEmpty then none
  else
    let r1 := t.dropWhile (fun c => c = '#')
    let ws := r1.takeWhile isPySpace
    if ws.isEmpty then none
    else
      let r2 := r1.dropWhile isPySpace
      let body := r2.takeWhile (fun c => !(c = '\n'))
      let r3 := r2.dropWhile (fun c => !(c = '\n'))
      some (hs ++ ws ++ body, r3)

/-- Fuelled scan embedding `re.split` on the heading pattern: returns the
chunk before the first heading match and the list of (delimiter, following
chunk) pairs.  `atStart` records whether the current position is a line
start (position 0 or just after a newline), where alone `^` can match. -/
def scanSplitAux : Nat → Bool → List Char → List Char × List (List Char × List Char)
  | 0, _, _ => ([], [])
  | _ + 1, _, [] => ([], [])
  | fuel + 1, atStart, c :: rest =>
      match (if atStart then headingMatchAt (c :: rest) else none) with
      | some (delim, rem) =>
          let r := scanSplitAux fuel (delim.getLastD ' ' = '\n') rem
          ([], (delim, r.1) :: r.2)
      | none =>
          let r := scanSplitAux fuel (c = '\n') rest
          (c :: r.1, r.2)

/-- `re.split(r"(^#+\s+.*$)", text, flags=re.MULTILINE)` as
(preamble, (delimiter, chunk) pairs). -/
def reSplitHeadings (text : String) : List Char × List (List Char × List Char) :=
  scanSplitAux (text.data.length + 1) true text.data

/-- The (heading delimiter, following chunk) pairs of the split, as
strings; `process_brain_dump` iterates exactly over these. -/
def headingPairs (text : String) : List (String × String) :=
  (reSplitHeadings text).2.map (fun pr => (String.mk pr.1, String.mk pr.2))

/-- The number of matches of the multiline heading pattern `^#+\s+.*$`
found in the document, i.e. its heading lines. -/
def headingMatchCount (text : String) : Nat := (reSplitHeadings text).2.length

/-- The Sections produced by `process_brain_dump`: a (stripped header,
stripped body) pair for every heading pair whose body is non-empty after
`strip()`; pairs with whitespace-only bodies are skipped. -/
def extractSections (text : String) : List (String × String) :=
  (headingPairs text).filterMap (fun pr =>
    let content := pyStrip pr.2
    if content = "" then none else some (pyStrip pr.1, content))

/-! ## Filesystem model and the `AntigravityEngine` file helpers -/

/-- The filesystem: an association list from paths to file contents.
Lookup takes the first binding of a path. -/
abbrev FS := List (FPath × String)

/-- Content of the file at `p`, `none` when no such file exists. -/
def fsGet (fs : FS) (p : FPath) : Option String :=
  (fs.find? (fun e => decide (e.1 = p))).map (fun e => e.2)

/-- Replace (or create) the file at `p` with content `v`.  Since `fsGet`
returns the first binding, prepending shadows any older binding of `p`;
observationally this is exactly overwriting the file. -/
def fsSet (fs : FS) (p : FPath) (v : String) : FS := (p, v) :: fs

/-- Embedding of `AntigravityEngine.validate_file_path` over the
filesystem model: a `None` or empty path is invalid, otherwise the path
must name an existing readable regular file, i.e. a file of the model. -/
def validate_file_path (fs : FS) : Option FPath → Bool
  | none => false
  | some p => !p.isEmpty && (fsGet fs p).isSome

/-- Embedding of `AntigravityEngine.write_file`: with `exist_ok` set an
existing file is left untouched, otherwise the file is created or
overwritten with `content.strip() + "\n"`. -/
def write_file (fs : FS) (path : FPath) (content : String) (exist_ok : Bool) : FS :=
  if exist_ok && (fsGet fs path).isSome then fs
  else fsSet fs path (pyStrip content ++ "\n")

/-- Embedding of `AntigravityEngine.append_file`: open in append mode
(creating an absent file as empty) and write `"\n\n" + content.strip() + "\n"`
after the existing bytes. -/
def append_file (fs : FS) (path : FPath) (content : String) : FS :=
  fsSet fs path (((fsGet fs path).getD "") ++ "\n\n" ++ pyStrip content ++ "\n")

/-! ## `AntigravityAssimilator.build_tech_deep_dive` -/

/-- Plain substring containment: the model of Python's `key in text`. -/
def containsSub (needle : List Char) : List Char → Bool
  | [] => startsWithList needle []
  | c :: rest => startsWithList needle (c :: rest) || containsSub needle rest

/-- Lexicographic code-point comparison of character lists, the order
underlying Python's `sorted` on strings. -/
def charListLe : List Char → List Char → Bool
  | [], _ => true
  | _ :: _, [] => false
  | a :: as, b :: bs => if a = b then charListLe as bs else decide (a < b)

/-- `a ≤ b` in Python string order. -/
def strLe (a b : String) : Bool := charListLe a.data b.data

/-- Insert into a `strLe`-sorted list. -/
def insertSorted (x : String) : List String → List String
  | [] => [x]
  | y :: ys => if strLe x y then x :: y :: ys else y :: insertSorted x ys

/-- Insertion sort by `strLe`: the model of Python's `sorted` on a list
of strings. -/
def sortStrings : List String → List String
  | [] => []
  | x :: xs => insertSorted x (sortStrings xs)

/-- Model of Python's `str.title()` (ASCII): uppercase every letter that
follows a non-letter, lowercase every other letter. -/
def pyTitleAux : Bool → List Char → List Char
  | _, [] => []
  | prevAlpha, c :: rest =>
      if c.isAlpha then
        (if prevAlpha then c.toLower else c.toUpper) :: pyTitleAux true rest
      else c :: pyTitleAux false rest

/-- `str.title()` on strings. -/
def pyTitle (s : String) : String := String.mk (pyTitleAux false s.data)

/-- The `observation_map` of `build_tech_deep_dive`, in declaration
order. -/
def observationMap : List (String × String) :=
  [("architecture", "Structural architectural specifications detected."),
   ("security", "Security-sensitive components or requirements identified."),
   ("auth", "Security-sensitive components or requirements identified."),
   ("database", "Data persistence layers identified."),
   ("sql", "Data persistence layers identified."),
   ("api", "API surfaces or integrations identified."),
   ("endpoint", "API surfaces or integrations identified.")]

/-- The `debt_keywords` list of `build_tech_deep_dive`. -/
def debtKeywords : List String :=
  ["todo", "fixme", "refactor", "deprecated", "legacy", "optimization needed"]

/-- Concatenate a list of strings (the repeated `content += ...` of the
source). -/
def concatStr : List String → String
  | [] => ""
  | s :: rest => s ++ concatStr rest

/-- Embedding of `AntigravityAssimilator.build_tech_deep_dive`: the
deterministic TECH_STACK.md text generated from the detected keywords and
the full document (substring checks, not word-boundary ones). -/
def build_tech_deep_dive (keywords : List String) (full_text : String) : String :=
  let text_lower := lowerChars full_text.data
  let primary := concatStr ((sortStrings keywords).map
    (fun k => "- **" ++ pyTitle k ++ "**\n"))
  let observations := (observationMap.filterMap (fun pr =>
    if containsSub pr.1.data text_lower then some pr.2 else none)).dedup
  let obsBlock :=
    if observations.isEmpty then "- Standard project structure with generic tech stack.\n"
    else concatStr ((sortStrings observations).map (fun o => "- " ++ o ++ "\n"))
  let debts := debtKeywords.filter (fun k => containsSub k.data text_lower)
  let debtBlock :=
    if debts.isEmpty then "No immediate technical debt keywords identified in source documents.\n"
    else "Potential technical debt or optimization areas identified:\n" ++
      concatStr (debts.map (fun d => "- " ++ pyTitle d ++ "\n"))
  "# 🛠️ Technical Stack Deep-Dive\n\n## 🚀 Primary Technologies\n" ++ primary ++
  "\n## 🔍 Contextual Observations\n" ++ obsBlock ++
  "\n## ⚠️ Technical Debt & Tracking\n" ++ debtBlock ++
  "\n## 🤖 Agent Interaction Map\n" ++
  "Agents should prioritize rules in `.agent/rules/` and use `TECH_STACK.md` as the primary architectural reference.\n"

/-! ## The pipeline (`AntigravityAssimilator.process_brain_dump`) -/

/-- The fixed archive destination
`os.path.join(base_dir, "context", "raw", "master_brain_dump.md")`. -/
def archivePath (base_dir : String) : FPath :=
  [base_dir, "context", "raw", "master_brain_dump.md"]

/-- The fixed tech-stack destination
`os.path.join(base_dir, "docs", "TECH_STACK.md")`. -/
def techStackPath (base_dir : String) : FPath :=
  [base_dir, "docs", "TECH_STACK.md"]

/-- The provenance block appended for one section:
`f"<!-- Auto-Assimilated Source -->\n\n{header}\n\n{content}"`. -/
def formattedBlock (header content : String) : String :=
  "<!-- Auto-Assimilated Source -->\n\n" ++ header ++ "\n\n" ++ content

/-- The distribution loop of `process_brain_dump`: for every
(delimiter, chunk) pair of the split, strip header and body, skip empty
bodies, classify, slugify, route, and append the formatted block. -/
def distributeSections (base_dir : String) (fs : FS) : List (String × String) → FS
  | [] => fs
  | (h, b) :: rest =>
      let header := pyStrip h
      let content := pyStrip b
      if content = "" then distributeSections base_dir fs rest
      else
        let category := identify_category (header ++ "\n" ++ content)
        let safe_title := slugify_title header
        let dest := get_destination_path base_dir category safe_title
        distributeSections base_dir (append_file fs dest (formattedBlock header content)) rest

/-- Embedding of `AntigravityAssimilator.process_brain_dump` as a state
transformer on the filesystem model: validate the source path (returning
the state unchanged with an empty keyword list on failure), read the
text, archive it with `exist_ok`, detect the tech stack, write
TECH_STACK.md with `exist_ok`, split on headings and distribute every
section, and return the detected keywords. -/
def process_brain_dump (filepath : Option FPath) (base_dir : String) (fs : FS) :
    FS × List String :=
  if !validate_file_path fs filepath then (fs, [])
  else
    match filepath with
    | none => (fs, [])
    | some fp =>
        match fsGet fs fp with
        | none => (fs, [])
        | some full_text =>
            let fs1 := write_file fs (archivePath base_dir) full_text true
            let detected := detect_tech_stack full_text
            let fs2 := write_file fs1 (techStackPath base_dir)
              (build_tech_deep_dive detected full_text) true
            let fs3 := distributeSections base_dir fs2 (headingPairs full_text)
            (fs3, detected)

/-- The destination of one heading pair (after stripping), or `none` when
the pair is skipped for a whitespace-only body. -/
def sectionDest (base_dir : String) (pr : String × String) : Option FPath :=
  let header := pyStrip pr.1
  let content := pyStrip pr.2
  if content = "" then none
  else some (get_destination_path base_dir
    (identify_category (header ++ "\n" ++ content)) (slugify_title header))

/-- The bytes `append_file` adds for one routed section. -/
def appendedBlock (header content : String) : String :=
  "\n\n" ++ pyStrip (formattedBlock header content) ++ "\n"

/-- The blocks appended to the file at `p` by the distribution loop, in
document order. -/
def blocksFor (base_dir : String) (pairs : List (String × String)) (p : FPath) :
    List String :=
  pairs.filterMap (fun pr =>
    if sectionDest base_dir pr = some p then
      some (appendedBlock (pyStrip pr.1) (pyStrip pr.2))
    else none)

/-! ## Basic facts about the filesystem model -/

theorem fsGet_fsSet (fs : FS) (p : FPath) (v : String) (q : FPath) :
    fsGet (fsSet fs p v) q = if q = p then some v else fsGet fs q := by
  by_cases h : q = p
  · subst h
    simp [fsGet, fsSet, List.find?]
  · have h2 : ¬ p = q := fun hc => h hc.symm
    simp [fsGet, fsSet, List.find?, h, h2]

theorem string_append_empty (s : String) : s ++ "" = s := by
  cases s with
  | mk data => show String.mk (data ++ []) = String.mk data
               rw [List.append_nil]

theorem string_append_assoc (a b c : String) : a ++ b ++ c = a ++ (b ++ c) := by
  cases a with
  | mk da =>
      cases b with
      | mk db =>
          cases c with
          | mk dc => show String.mk (da ++ db ++ dc) = String.mk (da ++ (db ++ dc))
                     rw [List.append_assoc]

theorem write_file_skip (fs : FS) (path : FPath) (content : String)
    (h : (fsGet fs path).isSome = true) : write_file fs path content true = fs := by
  simp [write_file, h]

theorem fsGet_write_file_new (fs : FS) (path : FPath) (content : String)
    (h : fsGet fs path = none) :
    fsGet (write_file fs path content true) path = some (pyStrip content ++ "\n") := by
  simp [write_file, h, fsGet_fsSet]

theorem fsGet_write_file_ne (fs : FS) (path : FPath) (content : String) (ok : Bool)
    (q : FPath) (h : q ≠ path) :
    fsGet (write_file fs path content ok) q = fsGet fs q := by
  unfold write_file
  by_cases hs : ok && (fsGet fs path).isSome
  · simp [hs]
  · simp [hs, fsGet_fsSet, h]

theorem fsGet_append_file_same (fs : FS) (path : FPath) (content : String) :
    fsGet (append_file fs path content) path =
      some (((fsGet fs path).getD "") ++ "\n\n" ++ pyStrip content ++ "\n") := by
  simp [append_file, fsGet_fsSet]

theorem fsGet_append_file_ne (fs : FS) (path : FPath) (content : String)
    (q : FPath) (h : q ≠ path) :
    fsGet (append_file fs path content) q = fsGet fs q := by
  simp [append_file, fsGet_fsSet, h]

/-- The distribution loop, observed at any one path: it exactly appends, in
document order, the blocks of the sections routed to that path, after the
bytes already there (an absent file behaving as empty); a path receiving no
section is untouched. -/
theorem distributeSections_observed (base : String) :
    ∀ (pairs : List (String × String)) (fs : FS) (p : FPath),
      fsGet (distributeSections base fs pairs) p =
        if blocksFor base pairs p = [] then fsGet fs p
        else some (((fsGet fs p).getD "") ++ concatStr (blocksFor base pairs p)) := by
  intro pairs
  induction pairs with
  | nil => intro fs p; simp [distributeSections, blocksFor]
  | cons pr rest ih =>
      intro fs p
      obtain ⟨h, b⟩ := pr
      by_cases hc : pyStrip b = ""
      · have hdest : sectionDest base (h, b) = none := by
          simp [sectionDest, hc]
        have : blocksFor base ((h, b) :: rest) p = blocksFor base rest p := by
          simp [blocksFor, List.filterMap_cons, hdest]
        rw [this, show distributeSections base fs ((h, b) :: rest) =
              distributeSections base fs rest by simp [distributeSections, hc]]
        exact ih fs p
      · have hdest : sectionDest base (h, b) =
            some (get_destination_path base
              (identify_category (pyStrip h ++ "\n" ++ pyStrip b))
              (slugify_title (pyStrip h))) := by
          simp [sectionDest, hc]
        set dest := get_destination_path base
          (identify_category (pyStrip h ++ "\n" ++ pyStrip b))
          (slugify_title (pyStrip h)) with hdef
        have hstep : distributeSections base fs ((h, b) :: rest) =
            distributeSections base
              (append_file fs dest (formattedBlock (pyStrip h) (pyStrip b))) rest := by
          simp [distributeSections, hc, hdef]
        by_cases hp : dest = p
        · subst hp
          have hblocks : blocksFor base ((h, b) :: rest) dest =
              appendedBlock (pyStrip h) (pyStrip b) :: blocksFor base rest dest := by
            simp [blocksFor, List.filterMap_cons, hdest]
          rw [hstep, hblocks, ih]
          have hget : fsGet (append_file fs dest (formattedBlock (pyStrip h) (pyStrip b))) dest =
              some (((fsGet fs dest).getD "") ++ "\n\n" ++
                pyStrip (formattedBlock (pyStrip h) (pyStrip b)) ++ "\n") :=
            fsGet_append_file_same fs dest (formattedBlock (pyStrip h) (pyStrip b))
          by_cases hrest : blocksFor base rest dest = []
          · simp only [hrest, if_pos rfl, if_neg (List.cons_ne_nil _ _)]
            rw [hget]
            simp [concatStr, appendedBlock, string_append_empty, string_append_assoc]
          · simp only [hrest, if_neg hrest, if_neg (List.cons_ne_nil _ _)]
            rw [hget]
            simp [concatStr, appendedBlock, string_append_assoc]
        · have hblocks : blocksFor base ((h, b) :: rest) p = blocksFor base rest p := by
            have : ¬ (sectionDest base (h, b) = some p) := by
              rw [hdest]
              intro hcon
              exact hp (Option.some.inj hcon)
            simp [blocksFor, List.filterMap_cons, this]
          rw [hstep, hblocks, ih]
          rw [fsGet_append_file_ne fs dest _ p (fun hc2 => hp hc2.symm)]

/-! ## C3 : invalid source path is non-fatal and writes nothing -/

/-- C3: for every source path that is not a readable regular file of the
model (including `None` and the empty path), `process_brain_dump` returns
the empty keyword list and leaves the filesystem unchanged: no write is
performed on this error. -/
theorem C3_invalid_source_non_fatal (fs : FS) (filepath : Option FPath)
    (base_dir : String) (h : validate_file_path fs filepath = false) :
    process_brain_dump filepath base_dir fs = (fs, []) := by
  simp [process_brain_dump, h]

/-- Witness for C3 at a concrete unreadable path over a concrete state. -/
theorem C3_invalid_source_non_fatal_witness :
    process_brain_dump (some ["nonexistent", "file.md"]) "proj"
      [(["a.md"], "content")] = ([(["a.md"], "content")], []) :=
  C3_invalid_source_non_fatal [(["a.md"], "content")]
    (some ["nonexistent", "file.md"]) "proj" (by decide)

/-! ## C8 : the router is a pure total mapping -/

/-- C8: `get_destination_path` is a pure total mapping: rules, workflows,
skills and docs map to their fixed subdirectory templates under the base
directory, and any unrecognized category value falls back to the docs
path; a path is always returned. -/
theorem C8_destination_path_total (base slug : String) :
    get_destination_path base "rules" slug =
      [base, ".agent", "rules", "imported_" ++ slug ++ ".md"] ∧
    get_destination_path base "workflows" slug =
      [base, ".agent", "workflows", "imported_" ++ slug ++ ".md"] ∧
    get_destination_path base "skills" slug =
      [base, ".agent", "skills", "imported_" ++ slug, "SKILL.md"] ∧
    get_destination_path base "docs" slug =
      [base, "docs", "imported", slug ++ ".md"] ∧
    (∀ category : String,
      category ∉ (["rules", "workflows", "skills", "docs"] : List String) →
      get_destination_path base category slug =
        [base, "docs", "imported", slug ++ ".md"]) := by
  refine ⟨rfl, rfl, rfl, rfl, ?_⟩
  intro category hcat
  simp only [List.mem_cons, List.not_mem_nil, or_false, not_or] at hcat
  obtain ⟨h1, h2, h3, h4⟩ := hcat
  have g1 : ¬ ("rules" = category) := fun hc => h1 hc.symm
  have g2 : ¬ ("workflows" = category) := fun hc => h2 hc.symm
  have g3 : ¬ ("skills" = category) := fun hc => h3 hc.symm
  have g4 : ¬ ("docs" = category) := fun hc => h4 hc.symm
  simp [get_destination_path, List.find?, g1, g2, g3, g4]

/-- Witness for C8's defensive-fallback clause at a concrete unrecognized
category. -/
theorem C8_destination_path_total_witness :
    get_destination_path "b" "mystery" "s" = ["b", "docs", "imported", "s" ++ ".md"] :=
  (C8_destination_path_total "b" "s").2.2.2.2 "mystery" (by decide)

/-- Every destination returned by the router has one of the four fixed
shapes. -/
theorem get_destination_path_shape (base category slug : String) :
    get_destination_path base category slug =
        [base, ".agent", "rules", "imported_" ++ slug ++ ".md"] ∨
    get_destination_path base category slug =
        [base, ".agent", "workflows", "imported_" ++ slug ++ ".md"] ∨
    get_destination_path base category slug =
        [base, ".agent", "skills", "imported_" ++ slug, "SKILL.md"] ∨
    get_destination_path base category slug =
        [base, "docs", "imported", slug ++ ".md"] := by
  by_cases h1 : "rules" = category
  · exact Or.inl (by simp [get_destination_path, List.find?, h1, AGENT_DIR])
  · by_cases h2 : "workflows" = category
    · exact Or.inr (Or.inl (by simp [get_destination_path, List.find?, h1, h2, AGENT_DIR]))
    · by_cases h3 : "skills" = category
      · exact Or.inr (Or.inr (Or.inl
          (by simp [get_destination_path, List.find?, h1, h2, h3, AGENT_DIR])))
      · by_cases h4 : "docs" = category
        · exact Or.inr (Or.inr (Or.inr
            (by simp [get_destination_path, List.find?, h1, h2, h3, h4, AGENT_DIR])))
        · exact Or.inr (Or.inr (Or.inr
            (by simp [get_destination_path, List.find?, h1, h2, h3, h4, AGENT_DIR])))

/-- No routed section ever lands on the archive file. -/
theorem dest_ne_archivePath (base category slug : String) :
    get_destination_path base category slug ≠ archivePath base := by
  rcases get_destination_path_shape base category slug with h | h | h | h <;>
    rw [h] <;> simp [archivePath]

/-- No routed section ever lands on the TECH_STACK.md file. -/
theorem dest_ne_techStackPath (base category slug : String) :
    get_destination_path base category slug ≠ techStackPath base := by
  rcases get_destination_path_shape base category slug with h | h | h | h <;>
    rw [h] <;> simp [techStackPath]

/-- The archive file and TECH_STACK.md are distinct paths. -/
theorem archivePath_ne_techStackPath (base : String) :
    archivePath base ≠ techStackPath base := by
  simp [archivePath, techStackPath]

/-! ## C6 : section count versus heading count -/

theorem length_filterMap_lt_of_none {α β : Type} (f : α → Option β) :
    ∀ (l : List α) (x : α), x ∈ l → f x = none →
      (l.filterMap f).length < l.length := by
  intro l
  induction l with
  | nil => intro x hx; exact absurd hx (List.not_mem_nil x)
  | cons a rest ih =>
      intro x hx hfx
      rcases List.mem_cons.mp hx with hxa | hxr
      · subst hxa
        rw [List.filterMap_cons, hfx]
        exact Nat.lt_succ_of_le (List.length_filterMap_le f rest)
      · rw [List.filterMap_cons]
        cases hfa : f a with
        | none => exact Nat.lt_succ_of_lt (ih x hxr hfx)
        | some b =>
            simpa [List.length_cons] using Nat.succ_lt_succ (ih x hxr hfx)

theorem headingMatchCount_eq (text : String) :
    headingMatchCount text = (headingPairs text).length := by
  simp [headingMatchCount, headingPairs]

/-- C6: the number of Sections produced by the splitter is at most the
number of heading matches of `^#+\s+.*$` in the document, strictly fewer
whenever some heading's following chunk is empty or whitespace-only after
stripping, and every Section comes from a heading pair (the preamble
before the first heading never becomes a Section). -/
theorem C6_section_count (text : String) :
    (extractSections text).length ≤ headingMatchCount text ∧
    ((∃ pr ∈ headingPairs text, pyStrip pr.2 = "") →
      (extractSections text).length < headingMatchCount text) ∧
    (∀ s ∈ extractSections text, ∃ pr ∈ headingPairs text,
      s.1 = pyStrip pr.1 ∧ s.2 = pyStrip pr.2) := by
  refine ⟨?_, ?_, ?_⟩
  · rw [headingMatchCount_eq]
    exact List.length_filterMap_le _ (headingPairs text)
  · rintro ⟨pr, hmem, hempty⟩
    rw [headingMatchCount_eq]
    refine length_filterMap_lt_of_none _ (headingPairs text) pr hmem ?_
    simp [hempty]
  · intro s hs
    rcases List.mem_filterMap.mp hs with ⟨pr, hmem, hf⟩
    refine ⟨pr, hmem, ?_⟩
    by_cases hc : pyStrip pr.2 = ""
    · rw [if_pos hc] at hf
      exact absurd hf (by simp)
    · rw [if_neg hc] at hf
      have := Option.some.inj hf
      constructor
      · exact congrArg Prod.fst this.symm
      · exact congrArg Prod.snd this.symm

/-- Witness for C6's strict inequality on a document with an empty-bodied
heading: two heading lines, one Section. -/
theorem C6_section_count_witness :
    (extractSections "# A\n\n# B\nbody\n").length <
      headingMatchCount "# A\n\n# B\nbody\n" :=
  (C6_section_count "# A\n\n# B\nbody\n").2.1 (by decide)

/-! ## C5 : the detector returns exactly the matched canonical keywords -/

/-- Membership characterization of `detect_tech_stack`: a keyword is
returned exactly when it is a matched primary key or the canonical of a
matched alias. -/
theorem detect_mem_iff (text : String) (k : String) :
    k ∈ detect_tech_stack text ↔
      (k ∈ primarySources ∧ hasWordMatch k.data (lowerChars text.data) = true) ∨
      (∃ pr ∈ TECH_ALIASES, pr.1 = k ∧
        ∃ al ∈ pr.2, hasWordMatch al.data (lowerChars text.data) = true) := by
  simp only [detect_tech_stack, List.mem_dedup, List.mem_append, List.mem_filter,
    List.mem_filterMap]
  constructor
  · rintro (⟨hmem, hmatch⟩ | ⟨pr, hpr, hsome⟩)
    · exact Or.inl ⟨hmem, hmatch⟩
    · by_cases hany : pr.2.any (fun al => hasWordMatch al.data (lowerChars text.data))
      · rw [if_pos hany] at hsome
        rcases List.any_eq_true.mp hany with ⟨al, hal, halm⟩
        exact Or.inr ⟨pr, hpr, Option.some.inj hsome, al, hal, halm⟩
      · rw [if_neg hany] at hsome
        exact absurd hsome (by simp)
  · rintro (⟨hmem, hmatch⟩ | ⟨pr, hpr, hk, al, hal, halm⟩)
    · exact Or.inl ⟨hmem, hmatch⟩
    · refine Or.inr ⟨pr, hpr, ?_⟩
      have hany : pr.2.any (fun al => hasWordMatch al.data (lowerChars text.data)) :=
        List.any_eq_true.mpr ⟨al, hal, halm⟩
      rw [if_pos hany, hk]

/-- C5: `detect_tech_stack` returns exactly the duplicate-free collection
of canonical keywords `k` such that either `k` is a primary dictionary key
with a word-boundary match on the lowercased text, or some alias of `k`
matches with word boundaries (the alias adds its canonical keyword, never
itself); with no matches the result is empty, and any text whose lowered
form has a word-boundary occurrence of `python` yields `python`. -/
theorem C5_detect_characterization (text : String) (k : String) :
    (k ∈ detect_tech_stack text ↔
      (k ∈ primarySources ∧ hasWordMatch k.data (lowerChars text.data) = true) ∨
      (∃ pr ∈ TECH_ALIASES, pr.1 = k ∧
        ∃ al ∈ pr.2, hasWordMatch al.data (lowerChars text.data) = true)) ∧
    (detect_tech_stack text).Nodup ∧
    (hasWordMatch "python".data (lowerChars text.data) = true →
      "python" ∈ detect_tech_stack text) := by
  refine ⟨detect_mem_iff text k, List.nodup_dedup _, ?_⟩
  intro hmatch
  exact (detect_mem_iff text "python").mpr (Or.inl ⟨by decide, hmatch⟩)

/-- Witness for C5 on a concrete text containing the literal word
`python`. -/
theorem C5_detect_characterization_witness :
    "python" ∈ detect_tech_stack "We use Python for the backend" :=
  (C5_detect_characterization "We use Python for the backend" "python").2.2 (by decide)

/-! ## C7 : the slug derivation -/

/-- Spec-side slug pipeline, following the specification's words: strip
the leading `#` markers, lowercase, replace every run of non-alphanumeric
characters by a single underscore, strip leading and trailing
underscores, truncate to 50 characters, and default to `"untitled"` when
the result is empty. -/
def replaceNonAlnumRuns : List Char → List Char
  | [] => []
  | [c] => [if isAsciiAlnum c then c else '_']
  | a :: b :: rest =>
      if isAsciiAlnum a then a :: replaceNonAlnumRuns (b :: rest)
      else if isAsciiAlnum b then '_' :: replaceNonAlnumRuns (b :: rest)
      else replaceNonAlnumRuns (b :: rest)

/-- The slug as described by the specification. -/
def slugifySpec (title : String) : String :=
  let t1 := title.data.dropWhile (fun c => c = '#')
  let t2 := replaceNonAlnumRuns (lowerChars t1)
  let t3 := stripUnderscores t2
  let t4 := t3.take 50
  if t4 = [] then "untitled" else String.mk t4

theorem alnum_ne_underscore {c : Char} (h : isAsciiAlnum c = true) : c ≠ '_' := by
  intro hc
  rw [hc] at h
  exact absurd h (by decide)

/-- Replacing characters pointwise and then collapsing underscore runs is
the same as replacing whole runs. -/
theorem collapse_map_eq_replaceRuns : ∀ l : List Char,
    collapseUnderscores (l.map (fun c => if isAsciiAlnum c then c else '_')) =
      replaceNonAlnumRuns l := by
  intro l
  induction l with
  | nil => rfl
  | cons a tail ih =>
      cases tail with
      | nil =>
          by_cases ha : isAsciiAlnum a <;> simp [collapseUnderscores, replaceNonAlnumRuns, ha]
      | cons b rest =>
          rw [List.map_cons] at ih
          by_cases ha : isAsciiAlnum a
          · have hne : a ≠ '_' := alnum_ne_underscore ha
            by_cases hb : isAsciiAlnum b
            · rw [if_pos hb] at ih
              simp [List.map_cons, collapseUnderscores, replaceNonAlnumRuns, ha, hb, hne, ih]
            · rw [if_neg hb] at ih
              simp [List.map_cons, collapseUnderscores, replaceNonAlnumRuns, ha, hb, hne, ih]
          · by_cases hb : isAsciiAlnum b
            · rw [if_pos hb] at ih
              have hbne : b ≠ '_' := alnum_ne_underscore hb
              simp [List.map_cons, collapseUnderscores, replaceNonAlnumRuns, ha, hb, hbne, ih]
            · rw [if_neg hb] at ih
              simp [List.map_cons, collapseUnderscores, replaceNonAlnumRuns, ha, hb, ih]

/-- A leading non-alphanumeric character is absorbed by the run replacement
followed by the left underscore strip. -/
theorem dropWhile_replaceRuns_cons {c : Char} (hc : isAsciiAlnum c = false)
    (l : List Char) :
    (replaceNonAlnumRuns (c :: l)).dropWhile (fun x => x = '_') =
      (replaceNonAlnumRuns l).dropWhile (fun x => x = '_') := by
  cases l with
  | nil => simp [replaceNonAlnumRuns, hc, List.dropWhile]
  | cons b rest =>
      by_cases hb : isAsciiAlnum b
      · have hstep : replaceNonAlnumRuns (c :: b :: rest) =
            '_' :: replaceNonAlnumRuns (b :: rest) := by
          simp [replaceNonAlnumRuns, hc, hb]
        rw [hstep]
        simp [List.dropWhile]
      · have hstep : replaceNonAlnumRuns (c :: b :: rest) =
            replaceNonAlnumRuns (b :: rest) := by
          simp [replaceNonAlnumRuns, hc, hb]
        rw [hstep]

theorem stripUnderscores_replaceRuns_cons {c : Char} (hc : isAsciiAlnum c = false)
    (l : List Char) :
    stripUnderscores (replaceNonAlnumRuns (c :: l)) =
      stripUnderscores (replaceNonAlnumRuns l) := by
  unfold stripUnderscores
  rw [dropWhile_replaceRuns_cons hc]

theorem pySpace_toLower_not_alnum {c : Char} (h : isPySpace c = true) :
    isAsciiAlnum (Char.toLower c) = false := by
  have hcase : ((((c = ' ' ∨ c = '\t') ∨ c = '\n') ∨ c = '\x0d') ∨ c = '\x0b') ∨
      c = '\x0c' := by
    simpa [isPySpace] using h
  rcases hcase with ((((h | h) | h) | h) | h) | h <;> subst h <;> decide

/-- A whitespace run in front of the title is invisible to the slug core
(lowercase, run replacement, underscore strip). -/
theorem slug_core_ws_prefix : ∀ (w : List Char), (∀ c ∈ w, isPySpace c = true) →
    ∀ r : List Char,
      stripUnderscores (replaceNonAlnumRuns (lowerChars (w ++ r))) =
        stripUnderscores (replaceNonAlnumRuns (lowerChars r)) := by
  intro w
  induction w with
  | nil => intro _ r; rfl
  | cons c wtail ih =>
      intro hws r
      have hc : isAsciiAlnum (Char.toLower c) = false :=
        pySpace_toLower_not_alnum (hws c (List.mem_cons_self c wtail))
      have hcons : lowerChars ((c :: wtail) ++ r) =
          Char.toLower c :: lowerChars (wtail ++ r) := by
        simp [lowerChars]
      rw [hcons, stripUnderscores_replaceRuns_cons hc]
      exact ih (fun x hx => hws x (List.mem_cons_of_mem c hx)) r

theorem slug_tail_eq (core : List Char) :
    String.mk ((if core = [] then "untitled".data else core).take 50) =
      (if core.take 50 = [] then "untitled" else String.mk (core.take 50)) := by
  cases core with
  | nil => simp
  | cons c rest =>
      rw [if_neg (List.cons_ne_nil c rest),
        show (50 : Nat) = 49 + 1 from rfl, List.take_succ_cons,
        if_neg (List.cons_ne_nil c (rest.take 49))]

theorem dropWhile_hash_of_head_ne {t : List Char} (h : ¬ t.head? = some '#') :
    t.dropWhile (fun c => c = '#') = t := by
  cases t with
  | nil => rfl
  | cons a l =>
      have ha : ¬ a = '#' := fun hc => h (by rw [List.head?_cons, hc])
      simp [List.dropWhile_cons, ha]

/-- C7: the slug equals the header with leading `#` markers stripped,
lowercased, every run of non-alphanumeric characters replaced by a single
underscore, leading and trailing underscores stripped, truncated to 50
characters, defaulting to `"untitled"` when empty; in particular
`"# ???"` slugifies to `"untitled"`. -/
theorem C7_slug_derivation :
    (∀ title : String, slugify_title title = slugifySpec title) ∧
    slugify_title "# ???" = "untitled" := by
  constructor
  · intro title
    unfold slugify_title slugifySpec
    dsimp only
    rw [collapse_map_eq_replaceRuns]
    by_cases hh : title.data.head? = some '#'
    · rw [if_pos hh]
      have hsplit : title.data.dropWhile (fun c => c = '#') =
          (title.data.dropWhile (fun c => c = '#')).takeWhile isPySpace ++
            (title.data.dropWhile (fun c => c = '#')).dropWhile isPySpace :=
        (List.takeWhile_append_dropWhile isPySpace
          (title.data.dropWhile (fun c => c = '#'))).symm
      rw [show stripUnderscores (replaceNonAlnumRuns
            (lowerChars (title.data.dropWhile (fun c => c = '#')))) =
          stripUnderscores (replaceNonAlnumRuns
            (lowerChars ((title.data.dropWhile (fun c => c = '#')).dropWhile isPySpace)))
        from by
          conv_lhs => rw [hsplit]
          exact slug_core_ws_prefix _ (fun c hc => List.mem_takeWhile_imp hc) _]
      exact slug_tail_eq _
    · rw [if_neg hh, dropWhile_hash_of_head_ne hh]
      exact slug_tail_eq _
  · decide

/-! ## C4 : the classifier picks the first highest-scoring category -/

/-- The classifier as described by the specification: return the category
whose keyword list has the highest total count of word-boundary matches
over the lowercased input, the default `"docs"` when the maximum score is
zero, and on non-zero ties the first category in declaration order
(rules, workflows, skills, docs). -/
def classifySpec (text : String) : String :=
  let tl := lowerChars text.data
  let a := keywordScore tl rulesKeywords
  let b := keywordScore tl workflowsKeywords
  let c := keywordScore tl skillsKeywords
  let d := keywordScore tl docsKeywords
  let m := max (max (max a b) c) d
  if m = 0 then "docs"
  else if a = m then "rules"
  else if b = m then "workflows"
  else if c = m then "skills"
  else "docs"

theorem select_first_max (a b c d : Nat) :
    (if (pickMaxFold ("rules", a) [("workflows", b), ("skills", c), ("docs", d)]).2 = 0
       then "docs"
       else (pickMaxFold ("rules", a) [("workflows", b), ("skills", c), ("docs", d)]).1) =
    (if max (max (max a b) c) d = 0 then "docs"
     else if a = max (max (max a b) c) d then "rules"
     else if b = max (max (max a b) c) d then "workflows"
     else if c = max (max (max a b) c) d then "skills"
     else "docs") := by
  simp only [pickMaxFold]
  dsimp only
  by_cases h1 : b > a
  · rw [if_pos h1]
    dsimp only
    by_cases h2 : c > b
    · rw [if_pos h2]
      dsimp only
      by_cases h3 : d > c
      · rw [if_pos h3]
        dsimp only
        split_ifs <;> first | rfl | (exfalso; omega)
      · rw [if_neg h3]
        dsimp only
        split_ifs <;> first | rfl | (exfalso; omega)
    · rw [if_neg h2]
      dsimp only
      by_cases h3 : d > b
      · rw [if_pos h3]
        dsimp only
        split_ifs <;> first | rfl | (exfalso; omega)
      · rw [if_neg h3]
        dsimp only
        split_ifs <;> first | rfl | (exfalso; omega)
  · rw [if_neg h1]
    dsimp only
    by_cases h2 : c > a
    · rw [if_pos h2]
      dsimp only
      by_cases h3 : d > c
      · rw [if_pos h3]
        dsimp only
        split_ifs <;> first | rfl | (exfalso; omega)
      · rw [if_neg h3]
        dsimp only
        split_ifs <;> first | rfl | (exfalso; omega)
    · rw [if_neg h2]
      dsimp only
      by_cases h3 : d > a
      · rw [if_pos h3]
        dsimp only
        split_ifs <;> first | rfl | (exfalso; omega)
      · rw [if_neg h3]
        dsimp only
        split_ifs <;> first | rfl | (exfalso; omega)

/-- C4: `identify_category` returns the category whose keyword list has
the highest total count of word-boundary matches over the lowercased
input; a zero maximum yields the fixed default `"docs"`, and non-zero
ties resolve deterministically to the first maximal category in the
declaration order rules, workflows, skills, docs. -/
theorem C4_classifier_first_max (text : String) :
    identify_category text = classifySpec text := by
  unfold identify_category classifySpec
  dsimp only
  exact select_first_max _ _ _ _

/-! ## Frame lemmas: no section routing touches the archive or
TECH_STACK.md -/

theorem sectionDest_ne_some_archive (base : String) (pr : String × String) :
    sectionDest base pr ≠ some (archivePath base) := by
  unfold sectionDest
  by_cases hc : pyStrip pr.2 = ""
  · simp [hc]
  · simp only [hc, if_neg, ite_false]
    intro h
    exact dest_ne_archivePath base _ _ (Option.some.inj h)

theorem sectionDest_ne_some_techStack (base : String) (pr : String × String) :
    sectionDest base pr ≠ some (techStackPath base) := by
  unfold sectionDest
  by_cases hc : pyStrip pr.2 = ""
  · simp [hc]
  · simp only [hc, if_neg, ite_false]
    intro h
    exact dest_ne_techStackPath base _ _ (Option.some.inj h)

theorem blocksFor_archive_nil (base : String) (pairs : List (String × String)) :
    blocksFor base pairs (archivePath base) = [] := by
  unfold blocksFor
  rw [List.filterMap_eq_nil_iff]
  intro pr _
  rw [if_neg (sectionDest_ne_some_archive base pr)]

theorem blocksFor_techStack_nil (base : String) (pairs : List (String × String)) :
    blocksFor base pairs (techStackPath base) = [] := by
  unfold blocksFor
  rw [List.filterMap_eq_nil_iff]
  intro pr _
  rw [if_neg (sectionDest_ne_some_techStack base pr)]

theorem distribute_preserves_archive (base : String) (fs : FS)
    (pairs : List (String × String)) :
    fsGet (distributeSections base fs pairs) (archivePath base) =
      fsGet fs (archivePath base) := by
  rw [distributeSections_observed base pairs fs (archivePath base),
    if_pos (blocksFor_archive_nil base pairs)]

theorem distribute_preserves_techStack (base : String) (fs : FS)
    (pairs : List (String × String)) :
    fsGet (distributeSections base fs pairs) (techStackPath base) =
      fsGet fs (techStackPath base) := by
  rw [distributeSections_observed base pairs fs (techStackPath base),
    if_pos (blocksFor_techStack_nil base pairs)]

theorem validate_some_of_readable (fs : FS) (src : FPath) (text : String)
    (hsrc : fsGet fs src = some text) (hne : src ≠ []) :
    validate_file_path fs (some src) = true := by
  show (!src.isEmpty && (fsGet fs src).isSome) = true
  cases hE : src.isEmpty
  · rw [hsrc]
    rfl
  · exact absurd (List.isEmpty_iff.mp hE) hne

/-- One-step unfolding of `process_brain_dump` on a readable source. -/
theorem process_brain_dump_readable (fs : FS) (src : FPath) (text base_dir : String)
    (hsrc : fsGet fs src = some text) (hne : src ≠ []) :
    process_brain_dump (some src) base_dir fs =
      (distributeSections base_dir
        (write_file
          (write_file fs (archivePath base_dir) text true)
          (techStackPath base_dir)
          (build_tech_deep_dive (detect_tech_stack text) text) true)
        (headingPairs text),
       detect_tech_stack text) := by
  have hval := validate_some_of_readable fs src text hsrc hne
  unfold process_brain_dump
  simp only [hval, Bool.not_true, Bool.false_eq_true, if_false, hsrc]

/-! ## C10 : pre-existing archive and TECH_STACK.md are never refreshed -/

/-- C10: both the archive write and the TECH_STACK.md write use
skip-if-exists semantics unconditionally, so on a successful run over
pre-existing archive and TECH_STACK.md files both are left byte-for-byte
unchanged, whatever the (possibly changed) source document contains. -/
theorem C10_exist_ok_never_refreshes (fs : FS) (src : FPath)
    (text base_dir A T : String)
    (hsrc : fsGet fs src = some text) (hne : src ≠ [])
    (hA : fsGet fs (archivePath base_dir) = some A)
    (hT : fsGet fs (techStackPath base_dir) = some T) :
    fsGet (process_brain_dump (some src) base_dir fs).1 (archivePath base_dir) = some A ∧
    fsGet (process_brain_dump (some src) base_dir fs).1 (techStackPath base_dir) = some T := by
  rw [process_brain_dump_readable fs src text base_dir hsrc hne]
  have h1 : write_file fs (archivePath base_dir) text true = fs :=
    write_file_skip _ _ _ (by rw [hA]; rfl)
  rw [h1]
  have h2 : write_file fs (techStackPath base_dir)
      (build_tech_deep_dive (detect_tech_stack text) text) true = fs :=
    write_file_skip _ _ _ (by rw [hT]; rfl)
  rw [h2]
  exact ⟨by rw [distribute_preserves_archive]; exact hA,
         by rw [distribute_preserves_techStack]; exact hT⟩

/-- Witness for C10: a changed source document does not refresh the
pre-existing archive or TECH_STACK.md. -/
theorem C10_exist_ok_never_refreshes_witness :
    fsGet (process_brain_dump (some ["d.md"]) "p"
        [(["d.md"], "new python text"),
         (["p", "context", "raw", "master_brain_dump.md"], "old archive"),
         (["p", "docs", "TECH_STACK.md"], "old tech")]).1
      (archivePath "p") = some "old archive" ∧
    fsGet (process_brain_dump (some ["d.md"]) "p"
        [(["d.md"], "new python text"),
         (["p", "context", "raw", "master_brain_dump.md"], "old archive"),
         (["p", "docs", "TECH_STACK.md"], "old tech")]).1
      (techStackPath "p") = some "old tech" :=
  C10_exist_ok_never_refreshes
    [(["d.md"], "new python text"),
     (["p", "context", "raw", "master_brain_dump.md"], "old archive"),
     (["p", "docs", "TECH_STACK.md"], "old tech")]
    ["d.md"] "new python text" "p" "old archive" "old tech"
    (by rfl) (by decide) (by rfl) (by rfl)

/-! ## C1 : the archive copy is whitespace-normalized, not verbatim -/

/-- C1 counterexample: the archive copy is NOT byte-for-byte the source
content.  For the readable source `"hello "` the archive receives
`"hello\n"` — `write_file` stores `content.strip() + "\n"`, so the
trailing space is lost and a newline is added. -/
theorem C1_counterexample_not_verbatim :
    fsGet (process_brain_dump (some ["dump.md"]) "proj"
        [(["dump.md"], "hello ")]).1 (archivePath "proj") = some "hello\n" ∧
    ("hello\n" : String) ≠ "hello " := by
  constructor
  · rfl
  · decide

/-- C1 (amended): when no archive file pre-exists, the archive copy that
`process_brain_dump` writes at `<base>/context/raw/master_brain_dump.md`
is the source text with leading and trailing whitespace stripped and a
single trailing newline appended (`full_text.strip() + "\n"`); it equals
the original bytes only when the original already has that normalized
form. -/
theorem C1_amended_archive_is_stripped_text (fs : FS) (src : FPath)
    (text base_dir : String)
    (hsrc : fsGet fs src = some text) (hne : src ≠ [])
    (hA : fsGet fs (archivePath base_dir) = none) :
    fsGet (process_brain_dump (some src) base_dir fs).1 (archivePath base_dir) =
      some (pyStrip text ++ "\n") := by
  rw [process_brain_dump_readable fs src text base_dir hsrc hne]
  dsimp only
  rw [distribute_preserves_archive,
    fsGet_write_file_ne _ _ _ _ _ (archivePath_ne_techStackPath base_dir),
    fsGet_write_file_new _ _ _ hA]

/-- Witness for the amended C1 on a concrete source document. -/
theorem C1_amended_archive_is_stripped_text_witness :
    fsGet (process_brain_dump (some ["dump.md"]) "proj"
        [(["dump.md"], "  note body\n")]).1 (archivePath "proj") =
      some (pyStrip "  note body\n" ++ "\n") :=
  C1_amended_archive_is_stripped_text [(["dump.md"], "  note body\n")]
    ["dump.md"] "  note body\n" "proj" (by rfl) (by decide) (by rfl)

/-! ## C2 : empty and heading-less documents -/

/-- C2 counterexample: for the readable heading-less document `"python"`
the run produces zero Sections but does NOT write only the archive copy
(it also creates `docs/TECH_STACK.md`) and does NOT return an empty
keyword set (it returns `["python"]`). -/
theorem C2_counterexample_techstack_and_keywords :
    headingPairs "python" = [] ∧
    (process_brain_dump (some ["dump.md"]) "proj"
      [(["dump.md"], "python")]).2 = ["python"] ∧
    (["python"] : List String) ≠ [] ∧
    fsGet ([(["dump.md"], "python")] : FS) (techStackPath "proj") = none ∧
    (fsGet (process_brain_dump (some ["dump.md"]) "proj"
        [(["dump.md"], "python")]).1 (techStackPath "proj")).isSome = true := by
  refine ⟨rfl, rfl, by decide, rfl, rfl⟩

/-- C2 (amended): for every empty or heading-less readable document the
run produces zero Sections and completes, writing at most the archive
copy and the `docs/TECH_STACK.md` deep-dive (every other path is
unchanged); the returned keywords are those detected over the full text —
an empty set for the empty document, but not necessarily for every
heading-less one. -/
theorem C2_amended_headingless (fs : FS) (src : FPath) (text base_dir : String)
    (hsrc : fsGet fs src = some text) (hne : src ≠ [])
    (hpairs : headingPairs text = []) :
    extractSections text = [] ∧
    (∀ p : FPath, p ≠ archivePath base_dir → p ≠ techStackPath base_dir →
      fsGet (process_brain_dump (some src) base_dir fs).1 p = fsGet fs p) ∧
    (process_brain_dump (some src) base_dir fs).2 = detect_tech_stack text ∧
    detect_tech_stack "" = [] := by
  refine ⟨?_, ?_, ?_, rfl⟩
  · unfold extractSections
    rw [hpairs]
    rfl
  · intro p hp1 hp2
    rw [process_brain_dump_readable fs src text base_dir hsrc hne]
    dsimp only
    rw [hpairs]
    show fsGet (write_file
      (write_file fs (archivePath base_dir) text true)
      (techStackPath base_dir)
      (build_tech_deep_dive (detect_tech_stack text) text) true) p = fsGet fs p
    rw [fsGet_write_file_ne _ _ _ _ _ hp2, fsGet_write_file_ne _ _ _ _ _ hp1]
  · rw [process_brain_dump_readable fs src text base_dir hsrc hne]

/-- Witness for the amended C2 on the concrete empty document. -/
theorem C2_amended_headingless_witness :
    fsGet (process_brain_dump (some ["dump.md"]) "proj"
        [(["dump.md"], "")]).1 ["other.md"] =
      fsGet ([(["dump.md"], "")] : FS) ["other.md"] ∧
    (process_brain_dump (some ["dump.md"]) "proj"
        [(["dump.md"], "")]).2 = detect_tech_stack "" :=
  ⟨(C2_amended_headingless [(["dump.md"], "")] ["dump.md"] "" "proj"
      (by rfl) (by decide) (by rfl)).2.1 ["other.md"] (by decide) (by decide),
   (C2_amended_headingless [(["dump.md"], "")] ["dump.md"] "" "proj"
      (by rfl) (by decide) (by rfl)).2.2.1⟩

/-! ## C9 : routing always appends; re-running duplicates content -/

/-- C9: section routing always appends and never overwrites — observed at
any path, the distribution loop leaves the file's prior bytes in place
and appends the routed blocks in document order.  Concretely: re-running
`process_brain_dump` on an unchanged source appends the same block a
second time (not idempotent), and two sections both titled `"# Setup"`
are appended to the same destination file in document order. -/
theorem C9_append_only_not_idempotent :
    (∀ (base : String) (pairs : List (String × String)) (fs : FS) (p : FPath),
      fsGet (distributeSections base fs pairs) p =
        if blocksFor base pairs p = [] then fsGet fs p
        else some (((fsGet fs p).getD "") ++ concatStr (blocksFor base pairs p))) ∧
    fsGet (process_brain_dump (some ["dump.md"]) "proj"
        [(["dump.md"], "# Setup\nrun step one\n")]).1
      ["proj", ".agent", "workflows", "imported_setup.md"] =
      some "\n\n<!-- Auto-Assimilated Source -->\n\n# Setup\n\nrun step one\n" ∧
    fsGet (process_brain_dump (some ["dump.md"]) "proj"
        (process_brain_dump (some ["dump.md"]) "proj"
          [(["dump.md"], "# Setup\nrun step one\n")]).1).1
      ["proj", ".agent", "workflows", "imported_setup.md"] =
      some ("\n\n<!-- Auto-Assimilated Source -->\n\n# Setup\n\nrun step one\n" ++
            "\n\n<!-- Auto-Assimilated Source -->\n\n# Setup\n\nrun step one\n") ∧
    (("\n\n<!-- Auto-Assimilated Source -->\n\n# Setup\n\nrun step one\n" ++
      "\n\n<!-- Auto-Assimilated Source -->\n\n# Setup\n\nrun step one\n" : String) ≠
      "\n\n<!-- Auto-Assimilated Source -->\n\n# Setup\n\nrun step one\n") ∧
    fsGet (process_brain_dump (some ["dump2.md"]) "proj"
        [(["dump2.md"], "# Setup\nalpha step\n# Setup\nbeta step\n")]).1
      ["proj", ".agent", "workflows", "imported_setup.md"] =
      some ("\n\n<!-- Auto-Assimilated Source -->\n\n# Setup\n\nalpha step\n" ++
            "\n\n<!-- Auto-Assimilated Source -->\n\n# Setup\n\nbeta step\n") := by
  refine ⟨fun base pairs fs p => distributeSections_observed base pairs fs p,
    rfl, rfl, by decide, rfl⟩
